import Mathlib

set_option maxHeartbeats 1000000

/-!
Shallow embedding of the binary-provisioning and instance-supervision
subsystem of the minio-for-tests repository.

Conventions of the embedding:
* JavaScript semver values that the code obtains through `semver.coerce`
  are modelled as `Option SemVer` (the result of the coercion: `none`
  when the string does not coerce).  The sentinel test
  `testVersionIsLatest` on the raw version string is passed as a `Bool`.
* Filesystem and process effects are passed explicitly: a marker file is
  a `String -> MarkerFile` map, pid liveness is an oracle
  `signal0ok : Nat -> Bool` recording whether `process.kill(pid, 0)`
  succeeds (any error from that signal counts as not alive, exactly as
  in `isAlive` of src/unnamed/part_000).
* Fallible code returns `Except`.
-/

/-- Semantic-version triple, the result of a successful js `semver.coerce`. -/
structure SemVer where
  major : Nat
  minor : Nat
  patch : Nat
  deriving DecidableEq, Repr

/-- Strict lexicographic order on semver triples (js `semver.lt`). -/
def svLt (a b : SemVer) : Bool :=
  if a.major < b.major then true
  else if b.major < a.major then false
  else if a.minor < b.minor then true
  else if b.minor < a.minor then false
  else decide (a.patch < b.patch)

/-- Non-strict order on semver triples (js `semver.gte`). -/
def svGe (a b : SemVer) : Bool :=
  !svLt a b

/-- Errors raised by the URL and name builder (src/unnamed/part_000). -/
inductive PlatformError
  | unknownPlatform (platform : String)
  deriving DecidableEq, Repr

/-- Errors raised by the version-string helpers (src/unnamed/part_000). -/
inductive VersionError
  | unknownVersion
  | knownVersionIncompatibility (requiredVersion : String)
  deriving DecidableEq, Repr

/-- Embedding of `MinioBinaryDownloadUrl.translatePlatform`
(src/unnamed/part_000 lines 931-958).  `version` is the coerced
`this.version` that the `win32` branch consults. -/
def translatePlatform (platform : String) (version : Option SemVer) :
    Except PlatformError String :=
  if platform = "darwin" then .ok "darwin"
  else if platform = "win32" then
    match version with
    | none => .ok "windows"
    | some v => if svGe v ⟨4, 3, 0⟩ then .ok "windows" else .ok "win32"
  else if platform = "linux" then .ok "linux"
  else if platform = "elementary OS" then .ok "linux"
  else if platform = "sunos" then .ok "sunos5"
  else .error (.unknownPlatform platform)

/-- Embedding of `MinioBinaryDownloadUrl.getRhelVersionString`
(src/unnamed/part_000 lines 704-768).  The inputs are the observations
the code makes of its string inputs: `version` is
`semver.coerce(this.version)`, `versionIsLatest` is
`testVersionIsLatest(this.version)`, and `releaseAsSemver` is
`semver.coerce(os.release)`.  The trailing fallback of the code (the
name still being the bare string `rhel`) appends `70`. -/
def getRhelVersionString (arch : String) (version : Option SemVer)
    (versionIsLatest : Bool) (releaseAsSemver : Option SemVer) :
    Except VersionError String :=
  match version with
  | none => .error .unknownVersion
  | some coercedVersion =>
    match releaseAsSemver with
    | some release =>
      if arch = "aarch64" then
        if svLt release ⟨8, 2, 0⟩ then
          .error (.knownVersionIncompatibility ">=4.4.2")
        else if svLt coercedVersion ⟨4, 4, 2⟩ ∧ versionIsLatest = false then
          .error (.knownVersionIncompatibility ">=4.4.2")
        else .ok "rhel82"
      else if svGe release ⟨8, 0, 0⟩ then .ok "rhel80"
      else if svGe release ⟨7, 0, 0⟩ ∧ svLt release ⟨8, 0, 0⟩ then .ok "rhel70"
      else if svGe release ⟨6, 0, 0⟩ ∧ svLt release ⟨7, 0, 0⟩ then .ok "rhel62"
      else if svGe release ⟨5, 0, 0⟩ ∧ svLt release ⟨6, 0, 0⟩ then .ok "rhel55"
      else .ok "rhel70"
    | none => .ok "rhel70"

/-!  Lockfile model (src/unnamed/part_002 lines 488-791 and `isAlive`
of src/unnamed/part_000 lines 142-155). -/

/-- Process environment of the lockfile code: our own pid and an oracle
recording whether `process.kill(pid, 0)` succeeds for a pid. -/
structure ProcEnv where
  selfPid : Nat
  signal0ok : Nat → Bool

/-- Embedding of `isAlive` (src/unnamed/part_000 lines 142-155): an
undefined (or unparseable, modelled as `none`) pid is not alive, and
otherwise liveness is exactly the success of signal `0`; any error from
that signal is treated as not alive. -/
def isAlive (env : ProcEnv) (pid : Option Nat) : Bool :=
  match pid with
  | none => false
  | some p => env.signal0ok p

/-- The four states reported by `LockFile.checkLock`. -/
inductive LockFileStatus
  | available
  | availableInstance
  | lockedSelf
  | lockedDifferent
  deriving DecidableEq, Repr

/-- Observable state of the marker file at a path: absent (stat fails
with ENOENT or EACCES), readable-with-ENOENT-failure, read failure with
another code (rethrown), or present with the parsed pid field (first
space-separated token through `parseInt`, `none` for NaN) and the uuid
field (second token, `none` when missing). -/
inductive MarkerFile
  | absent
  | unreadableEnoent
  | unreadableOther
  | present (pid : Option Nat) (uuid : Option String)
  deriving DecidableEq, Repr

/-- Errors of the lockfile operations. -/
inductive LockError
  | readFailed
  | unableToUnlock (thisInstance : Bool) (file : String)
  deriving DecidableEq, Repr

/-- Embedding of `LockFile.checkLock` (src/unnamed/part_002 lines
575-627).  `files` is the in-process set `this.files`, `fs` the state
of the marker files on disk, `uuid` the optional uuid argument. -/
def checkLock (env : ProcEnv) (files : List String)
    (fs : String → MarkerFile) (file : String) (uuid : Option String) :
    Except LockError LockFileStatus :=
  match fs file with
  | .absent => .ok .available
  | .unreadableEnoent => .ok .available
  | .unreadableOther => .error .readFailed
  | .present pidField uuidField =>
    if pidField = some env.selfPid then
      if file ∉ files then .ok .available
      else
        match uuid with
        | some u =>
          if uuidField = some u then .ok .availableInstance
          else .ok .lockedSelf
        | none => .ok .lockedSelf
    else if isAlive env pidField then .ok .lockedDifferent
    else .ok .available

/-- A lock handle: the `file` and `uuid` fields of a `LockFile`
instance, both cleared by `unlockCleanup`. -/
structure LockHandleState where
  file : Option String
  uuid : Option String
  deriving DecidableEq, Repr

/-- Events emitted on the in-process lockfile event bus. -/
inductive LockEvent
  | unlockEvent (file : String)
  deriving DecidableEq, Repr

/-- Embedding of `LockFile.unlockCleanup` (src/unnamed/part_002 lines
769-790): optionally unlink the marker file (unlink errors are caught
and ignored, so the model simply removes the entry), delete the path
from the in-process set, emit `unlock`, and invalidate the handle. -/
def unlockCleanup (h : LockHandleState) (files : List String)
    (fs : String → MarkerFile) (fileio : Bool) :
    LockHandleState × List String × (String → MarkerFile) × List LockEvent :=
  match h.file with
  | none => (h, files, fs, [])
  | some f =>
    let fs2 := if fileio then fun p => if p = f then MarkerFile.absent else fs p
               else fs
    (⟨none, none⟩, files.filter (fun x => x ≠ f), fs2, [.unlockEvent f])

/-- Embedding of `LockFile.unlock` (src/unnamed/part_002 lines
732-763).  Returns the updated handle, in-process set, filesystem and
the emitted events. -/
def unlock (env : ProcEnv) (h : LockHandleState) (files : List String)
    (fs : String → MarkerFile) :
    Except LockError
      (LockHandleState × List String × (String → MarkerFile) × List LockEvent) :=
  match h.file with
  | none => .ok (h, files, fs, [])
  | some f =>
    if f.length ≤ 0 then .ok (h, files, fs, [])
    else
      match checkLock env files fs f h.uuid with
      | .error e => .error e
      | .ok .available => .ok (unlockCleanup h files fs false)
      | .ok .availableInstance => .ok (unlockCleanup h files fs true)
      | .ok .lockedSelf => .error (.unableToUnlock true f)
      | .ok .lockedDifferent => .error (.unableToUnlock false f)

/-!  Instance supervisor model (src/unnamed/part_002 `MinioInstance`
and src/test.js `MinioServer`). -/

/-- Embedding of the launch-timeout selection inside
`MinioInstance.start` (src/unnamed/part_002 lines 159-177):
`!!launchTimeout && launchTimeout >= 1000 ? launchTimeout : 10000`. -/
def launchTimeoutTime (launchTimeout : Option Nat) : Nat :=
  match launchTimeout with
  | none => 10000
  | some t => if t ≠ 0 ∧ 1000 ≤ t then t else 10000

/-- The supervisor states of `MinioServer`. -/
inductive MinioServerStates
  | new
  | starting
  | running
  | stopped
  deriving DecidableEq, Repr

/-- Errors thrown by `MinioServer.start`: the `StateError` of the state
switch, the assertion that `instance.minioProcess` is already defined,
and a failure of the `_startUpInstance` pipeline (rethrown after the
best-effort stop). -/
inductive StartError
  | stateError (allowed : List MinioServerStates) (actual : MinioServerStates)
  | processAlreadyDefined
  | pipelineFailed
  deriving DecidableEq, Repr

/-- Embedding of `MinioServer.start` (src/test.js lines 737-793) as a
state machine.  `hasMinioProcess` models whether
`this._instanceInfo?.instance.minioProcess` is defined (always true for
a server in state `running`), `pipelineOk` whether `_startUpInstance`
resolves.  On success the returned list is the sequence of
`stateChange` emissions. -/
def MinioServer.start (state : MinioServerStates) (hasMinioProcess : Bool)
    (pipelineOk : Bool) :
    Except StartError (MinioServerStates × List MinioServerStates) :=
  match state with
  | .starting => .error (.stateError [.new, .stopped] .starting)
  | _ =>
    if hasMinioProcess then .error .processAlreadyDefined
    else if pipelineOk then .ok (.running, [.starting, .running])
    else .error .pipelineFailed

/-- Embedding of `generateDbName` (src/unnamed/part_000 lines 27-31):
`dbName || ""`. -/
def generateDbName (dbName : Option String) : String :=
  match dbName with
  | none => ""
  | some s => if s = "" then "" else s

/-- Embedding of `uriTemplate` (src/unnamed/part_000 lines 49-56). -/
def uriTemplate (host : String) (port : Option Nat) (dbName : String)
    (query : Option (List String)) : String :=
  let hosts := match port with
    | some p => host ++ ":" ++ toString p
    | none => host
  "mongodb://" ++ hosts ++ "/" ++ dbName ++
    (match query with
     | some q => "?" ++ String.intercalate "&" q
     | none => "")

/-- The fields of the instance descriptor `_instanceInfo` that `getUri`
could consult. -/
structure InstanceInfo where
  port : Nat
  ip : String
  deriving DecidableEq, Repr

/-- Errors thrown by `MinioServer.getUri`. -/
inductive GetUriError
  | stateError (allowed : List MinioServerStates) (actual : MinioServerStates)
  | instanceInfoUndefined
  deriving DecidableEq, Repr

/-- JavaScript `value || fallback` on an optional string: the fallback
is taken when the value is absent or the empty string (falsy). -/
def jsStringOr (value : Option String) (fallback : String) : String :=
  match value with
  | none => fallback
  | some s => if s = "" then fallback else s

/-- Embedding of `MinioServer.getUri` (src/test.js lines 1177-1199). -/
def MinioServer.getUri (state : MinioServerStates)
    (info : Option InstanceInfo) (otherDb otherIp : Option String) :
    Except GetUriError String :=
  match state with
  | .running | .starting =>
    match info with
    | none => .error .instanceInfoUndefined
    | some i =>
      .ok (uriTemplate (jsStringOr otherIp "127.0.0.1") (some i.port)
        (generateDbName otherDb) none)
  | s => .error (.stateError [.running, .starting] s)

/-!  Downloader model (src/MinioBinaryDownload.js). -/

/-- Suffix check: `s.data` ends with `suffixChars`. -/
def strEndsWith (s : String) (suffixChars : String) : Bool :=
  suffixChars.data.isSuffixOf s.data

/-- Match a suffix pattern against a string, where `none` entries are
single-character wildcards (the unescaped `.` of the js regexes). -/
def suffixMatches (s : String) (pat : List (Option Char)) : Bool :=
  let l := s.data
  decide (pat.length ≤ l.length) &&
    ((l.drop (l.length - pat.length)).zip pat).all fun pc =>
      match pc.2 with
      | none => true
      | some c => pc.1 = c

/-- The js regex `/(.tar.gz|.tgz)$/` of `extract`: an arbitrary
character followed by `tar`, an arbitrary character, `gz`; or an
arbitrary character followed by `tgz` (the dots are unescaped). -/
def matchesTarGz (name : String) : Bool :=
  suffixMatches name
      [none, some 't', some 'a', some 'r', none, some 'g', some 'z'] ||
    suffixMatches name [none, some 't', some 'g', some 'z']

/-- The js regex `/.zip$/` of `extract`: an arbitrary character
followed by `zip`. -/
def matchesZip (name : String) : Bool :=
  suffixMatches name [none, some 'z', some 'i', some 'p']

/-- The entry filter of `extract`
(`/(?:bin\/(?:minio(?:\.exe)?))$/i`): the entry name, case folded, ends
with `bin/minio` or `bin/minio.exe`. -/
def binaryEntryFilter (file : String) : Bool :=
  let folded := file.data.map Char.toLower
  "bin/minio".data.isSuffixOf folded || "bin/minio.exe".data.isSuffixOf folded

/-- The content found at the final binary path after `extract`: either
the verbatim copy of the downloaded archive made by `fspromises.copyFile`
(its mode is whatever the copy produced), or the content of an archive
entry written through `createWriteStream(extractPath, {mode: 0o775})`. -/
inductive FinalContent
  | fromArchiveCopy (raw : String)
  | fromEntry (content : String) (mode : Nat)
  deriving DecidableEq, Repr

/-- Embedding of the entry loop of `extractTarGz`
(src/MinioBinaryDownload.js lines 338-381): every entry whose name
passes the filter is written over the final path with mode `0o775`;
the last matching entry wins. -/
def extractTarGz (entries : List (String × String)) (cell : FinalContent) :
    FinalContent :=
  entries.foldl
    (fun c e => if binaryEntryFilter e.1 then .fromEntry e.2 0o775 else c) cell

/-- Embedding of the entry loop of `extractZip`
(src/MinioBinaryDownload.js lines 389-422); identical write behaviour
to the tar case. -/
def extractZip (entries : List (String × String)) (cell : FinalContent) :
    FinalContent :=
  entries.foldl
    (fun c e => if binaryEntryFilter e.1 then .fromEntry e.2 0o775 else c) cell

/-- Embedding of `MinioBinaryDownload.extract`
(src/MinioBinaryDownload.js lines 298-330), tracking the content that
ends up at the final binary path `minioFullPath`.  The function first
copies the whole archive verbatim onto the final path
(`fspromises.copyFile`), then dispatches on the archive name: tar-gz
and zip archives get their matching entries written over the final
path, any other name leaves the verbatim copy in place (the else-throw
of the source is commented out). -/
def extract (minioArchive raw : String) (entries : List (String × String)) :
    FinalContent :=
  let copied := FinalContent.fromArchiveCopy raw
  if matchesTarGz minioArchive then extractTarGz entries copied
  else if matchesZip minioArchive then extractZip entries copied
  else copied

/-- The observations `httpDownload` makes of the HTTP response: the
status code, the `content-length` header (absent or its parsed value)
and the total number of body bytes received. -/
structure HttpResponse where
  statusCode : Nat
  contentLength : Option Nat
  receivedBytes : Nat
  deriving DecidableEq, Repr

/-- Download errors (`DownloadError` of src/MinioBinaryDownload.js,
plus the missing-filename throw of `download`). -/
inductive DownloadFailure
  | status403
  | statusNot200 (code : Nat)
  | noContentLength
  | tooSmall (bytes : Nat)
  | missingFilename
  deriving DecidableEq, Repr

/-- Effects of `download` that the claims observe: whether an HTTP
request was issued, and the rename of the temp file onto the final
download location. -/
inductive DownloadEvent
  | httpGet
  | renameTempToFinal (tmp fin : String)
  deriving DecidableEq, Repr

/-- `httpOptions.path?.endsWith(".md5")` of the short-read check:
`false` when `path` is not set. -/
def optPathEndsWithMd5 (p : Option String) : Bool :=
  match p with
  | none => false
  | some s => strEndsWith s ".md5"

/-- Embedding of `MinioBinaryDownload.httpDownload`
(src/MinioBinaryDownload.js lines 430-530).  `optionsPath` is the
`path` property of the `httpOptions` argument, consulted by the
short-read exemption; the caller `download` never sets it.  On success
the temp file has been renamed onto `downloadLocation`, which is
returned. -/
def httpDownload (optionsPath : Option String) (resp : HttpResponse)
    (downloadLocation tempDownloadLocation : String) :
    Except DownloadFailure String :=
  if resp.statusCode ≠ 200 then
    if resp.statusCode = 403 then .error .status403
    else .error (.statusNot200 resp.statusCode)
  else
    match resp.contentLength with
    | none => .error .noContentLength
    | some len =>
      if resp.receivedBytes < len ∧ optPathEndsWithMd5 optionsPath = false then
        .error (.tooSmall resp.receivedBytes)
      else .ok downloadLocation

/-- Split a character list on `/` separators, keeping empty segments,
mirroring js `"...".split("/")`. -/
def splitOnSlash (l : List Char) : List (List Char) :=
  match l with
  | [] => [[]]
  | c :: rest =>
    let r := splitOnSlash rest
    if c = '/' then [] :: r
    else
      match r with
      | [] => [[c]]
      | h :: t => (c :: h) :: t

/-- Embedding of `MinioBinaryDownload.download`
(src/MinioBinaryDownload.js lines 230-291).  `urlPathname` is
`urlObject.pathname`; the filename is its last `/`-separated segment
(`split("/").pop()`), and `path.resolve(downloadDir, filename)` is
modelled as the joined path.  `fileExists` is `pathExists` on disk.
The `requestOptions` built here carry no `path` property, so
`httpDownload` is invoked with `none`.  The returned event list records
whether an HTTP request happened and the temp-file rename. -/
def download (downloadDir urlPathname : String) (fileExists : String → Bool)
    (resp : HttpResponse) :
    Except DownloadFailure (String × List DownloadEvent) :=
  let filename := String.mk ((splitOnSlash urlPathname.data).getLastD [])
  if filename = "" then .error .missingFilename
  else
    let downloadLocation := downloadDir ++ "/" ++ filename
    let tempDownloadLocation := downloadDir ++ "/" ++ filename ++ ".downloading"
    if fileExists downloadLocation then .ok (downloadLocation, [])
    else
      match httpDownload none resp downloadLocation tempDownloadLocation with
      | .error e => .error e
      | .ok f => .ok (f, [.httpGet, .renameTempToFinal tempDownloadLocation downloadLocation])

/-!  Concrete inputs used by counterexamples and witnesses. -/

/-- A process environment whose own pid is 100 and in which every pid is
alive (signal 0 always succeeds); in particular our own pid is alive,
as it always is in reality. -/
def lockEnvSelf : ProcEnv := ⟨100, fun _ => true⟩

/-- A disk state whose only marker file is owned by pid 100 (our own
pid in `lockEnvSelf`) with uuid `uuid-1`. -/
def lockFsSelf : String → MarkerFile :=
  fun f => if f = "/dl/4.4.2.lock" then .present (some 100) (some "uuid-1") else .absent

/-- Disk state of `lockFsSelf` after the marker file has been unlinked. -/
def lockFsSelfGone : String → MarkerFile :=
  fun p => if p = "/dl/4.4.2.lock" then MarkerFile.absent else lockFsSelf p

/-!  Theorems. -/

/-- Claim C1, counterexample: a `MinioServer` in state `running` has a
spawned `minioProcess`, and calling `start()` on it does throw: the
assertion that `instance.minioProcess` is not already defined fails.
The claim states that `start()` in state `running` does not throw. -/
theorem start_running_counterexample :
    MinioServer.start .running true true = .error .processAlreadyDefined := rfl

/-- Claim C1 (amended): `start()` in state `starting` throws a
`StateError` carrying the allowed states `new, stopped` and the actual
state; in state `new` or `stopped` (where no `minioProcess` exists) it
transitions to `starting` and then, on success of the pipeline, to
`running`; in state `running` the state switch never produces a
`StateError`, but the subsequent assertion throws whenever a
`minioProcess` is defined, which is always the case for a running
server. -/
theorem start_state_machine_spec (s : MinioServerStates) (hasProcess pipelineOk : Bool) :
    MinioServer.start .starting hasProcess pipelineOk =
      .error (.stateError [.new, .stopped] .starting) ∧
    ((s = .new ∨ s = .stopped) →
      MinioServer.start s false true = .ok (.running, [.starting, .running])) ∧
    MinioServer.start .running true pipelineOk = .error .processAlreadyDefined ∧
    (∀ allowed actual,
      MinioServer.start .running hasProcess pipelineOk ≠ .error (.stateError allowed actual)) := by
  refine ⟨rfl, ?_, rfl, ?_⟩
  · rintro (rfl | rfl) <;> rfl
  · intro allowed actual
    cases hasProcess <;> cases pipelineOk <;> simp [MinioServer.start]

/-- Claim C1, witness for the amended theorem. -/
theorem start_state_machine_spec_witness :
    MinioServer.start .new false true = .ok (.running, [.starting, .running]) :=
  (start_state_machine_spec .new false true).2.1 (Or.inl rfl)

/-- Claim C6, counterexample: for arch `aarch64` with a version that
coerces below `4.4.2` (and is not a `-latest` sentinel), but a RHEL
release string that does not coerce, `getRhelVersionString` does not
fail at all: the whole aarch64 branch is skipped and the fallback
`rhel70` is returned.  The claim demands a
`KnownVersionIncompatibilityError` here. -/
theorem getRhelVersionString_counterexample :
    getRhelVersionString "aarch64" (some ⟨4, 0, 0⟩) false none = .ok "rhel70" := rfl

/-- Claim C6 (amended): for arch `aarch64`, whenever both the version
and the RHEL release coerce, a release below `8.2.0` fails with
`KnownVersionIncompatibilityError` for every version, and a version
below `4.4.2` that is not a `v<major>.<minor>-latest` sentinel also
fails with `KnownVersionIncompatibilityError`; release `8.2` with
version `4.4.2` succeeds and returns `rhel82`.  (When the version does
not coerce the code fails earlier with `UnknownVersionError`, and when
the release does not coerce the aarch64 checks are skipped entirely.) -/
theorem getRhelVersionString_spec (v rv : SemVer) (isLatest : Bool) :
    (svLt rv ⟨8, 2, 0⟩ = true →
      getRhelVersionString "aarch64" (some v) isLatest (some rv) =
        .error (.knownVersionIncompatibility ">=4.4.2")) ∧
    (svLt v ⟨4, 4, 2⟩ = true → isLatest = false →
      getRhelVersionString "aarch64" (some v) isLatest (some rv) =
        .error (.knownVersionIncompatibility ">=4.4.2")) ∧
    getRhelVersionString "aarch64" (some ⟨4, 4, 2⟩) false (some ⟨8, 2, 0⟩) = .ok "rhel82" := by
  have e : getRhelVersionString "aarch64" (some v) isLatest (some rv) =
      (if svLt rv ⟨8, 2, 0⟩ then Except.error (.knownVersionIncompatibility ">=4.4.2")
       else if svLt v ⟨4, 4, 2⟩ ∧ isLatest = false then
         Except.error (.knownVersionIncompatibility ">=4.4.2")
       else Except.ok "rhel82") := rfl
  refine ⟨?_, ?_, rfl⟩
  · intro h
    rw [e, h]
    rfl
  · intro h1 h2
    cases hb : svLt rv ⟨8, 2, 0⟩
    · rw [e, hb, h1, h2]
      simp
    · rw [e, hb]
      rfl

/-- Claim C6, witness for the amended theorem. -/
theorem getRhelVersionString_spec_witness :
    getRhelVersionString "aarch64" (some ⟨4, 0, 0⟩) false (some ⟨7, 0, 0⟩) =
      .error (.knownVersionIncompatibility ">=4.4.2") ∧
    getRhelVersionString "aarch64" (some ⟨4, 1, 0⟩) false (some ⟨9, 0, 0⟩) =
      .error (.knownVersionIncompatibility ">=4.4.2") ∧
    getRhelVersionString "aarch64" (some ⟨4, 4, 2⟩) false (some ⟨8, 2, 0⟩) = .ok "rhel82" :=
  ⟨(getRhelVersionString_spec ⟨4, 0, 0⟩ ⟨7, 0, 0⟩ false).1 (by decide),
   (getRhelVersionString_spec ⟨4, 1, 0⟩ ⟨9, 0, 0⟩ false).2.1 (by decide) rfl,
   (getRhelVersionString_spec ⟨4, 4, 2⟩ ⟨9, 9, 9⟩ false).2.2⟩

/-- Claim C7, counterexample: the input platform `sunos` is neither
`darwin`, `win32`, `linux` nor `elementary OS`, yet `translatePlatform`
does not fail with `UnknownPlatformError`: it returns `sunos5` (with a
deprecation warning). -/
theorem translatePlatform_sunos_counterexample :
    translatePlatform "sunos" none = .ok "sunos5" := rfl

/-- Claim C7 (amended): `translatePlatform` maps `darwin` to `darwin`;
maps `win32` to `windows` when the version coerces to at least `4.3.0`
or does not coerce, and to `win32` otherwise; maps `linux` and
`elementary OS` to `linux`; maps `sunos` to `sunos5` (deprecated); and
fails with `UnknownPlatformError` for every other input platform. -/
theorem translatePlatform_spec (v : SemVer) (p : String)
    (hp : p ≠ "darwin" ∧ p ≠ "win32" ∧ p ≠ "linux" ∧ p ≠ "elementary OS" ∧ p ≠ "sunos") :
    translatePlatform "darwin" (some v) = .ok "darwin" ∧
    translatePlatform "win32" none = .ok "windows" ∧
    (svGe v ⟨4, 3, 0⟩ = true → translatePlatform "win32" (some v) = .ok "windows") ∧
    (svGe v ⟨4, 3, 0⟩ = false → translatePlatform "win32" (some v) = .ok "win32") ∧
    translatePlatform "linux" (some v) = .ok "linux" ∧
    translatePlatform "elementary OS" (some v) = .ok "linux" ∧
    translatePlatform "sunos" (some v) = .ok "sunos5" ∧
    translatePlatform p (some v) = .error (.unknownPlatform p) := by
  obtain ⟨h1, h2, h3, h4, h5⟩ := hp
  have e : translatePlatform "win32" (some v) =
      (if svGe v ⟨4, 3, 0⟩ then Except.ok "windows" else Except.ok "win32") := rfl
  refine ⟨rfl, rfl, ?_, ?_, rfl, rfl, rfl, ?_⟩
  · intro h
    rw [e, h]
    rfl
  · intro h
    rw [e, h]
    rfl
  · simp only [translatePlatform, if_neg h1, if_neg h2, if_neg h3, if_neg h4, if_neg h5]

/-- Claim C7, witness for the amended theorem. -/
theorem translatePlatform_spec_witness :
    translatePlatform "win32" (some ⟨4, 3, 0⟩) = .ok "windows" ∧
    translatePlatform "win32" (some ⟨4, 2, 0⟩) = .ok "win32" ∧
    translatePlatform "freebsd" (some ⟨4, 3, 0⟩) = .error (.unknownPlatform "freebsd") :=
  ⟨(translatePlatform_spec ⟨4, 3, 0⟩ "freebsd"
      ⟨by decide, by decide, by decide, by decide, by decide⟩).2.2.1 (by decide),
   (translatePlatform_spec ⟨4, 2, 0⟩ "freebsd"
      ⟨by decide, by decide, by decide, by decide, by decide⟩).2.2.2.1 (by decide),
   (translatePlatform_spec ⟨4, 3, 0⟩ "freebsd"
      ⟨by decide, by decide, by decide, by decide, by decide⟩).2.2.2.2.2.2.2⟩

/-- Claim C8 (confirmed): the launch timeout used by
`MinioInstance.start` is the caller-supplied value when it is at least
1000 milliseconds, defaults to 10000 milliseconds when no value is
supplied, and the effective timeout is never below 1000 milliseconds
for any caller-supplied value. -/
theorem launchTimeout_spec (t : Nat) :
    launchTimeoutTime none = 10000 ∧
    (1000 ≤ t → launchTimeoutTime (some t) = t) ∧
    1000 ≤ launchTimeoutTime (some t) := by
  have e : launchTimeoutTime (some t) = (if t ≠ 0 ∧ 1000 ≤ t then t else 10000) := rfl
  refine ⟨rfl, ?_, ?_⟩
  · intro h
    have hz : t ≠ 0 := by omega
    rw [e, if_pos ⟨hz, h⟩]
  · rw [e]
    split
    · omega
    · omega

/-- Claim C8, witness. -/
theorem launchTimeout_spec_witness :
    launchTimeoutTime none = 10000 ∧ launchTimeoutTime (some 1500) = 1500 ∧
    1000 ≤ launchTimeoutTime (some 500) :=
  ⟨(launchTimeout_spec 1500).1, (launchTimeout_spec 1500).2.1 (by decide),
   (launchTimeout_spec 500).2.2⟩

/-- Claim C2, counterexample: a marker file that is present and
readable, whose recorded pid is this process itself (which is alive,
signal 0 succeeds on it), but whose path is not in the in-process file
set, is reported `available` by `checkLock`.  The claim states that
`available` is reported exactly when the file is absent, reading fails
with ENOENT, or the recorded pid is not alive — none of which holds
here. -/
theorem checkLock_counterexample :
    checkLock lockEnvSelf [] lockFsSelf "/dl/4.4.2.lock" none = .ok .available ∧
    lockFsSelf "/dl/4.4.2.lock" = .present (some 100) (some "uuid-1") ∧
    lockEnvSelf.selfPid = 100 ∧
    isAlive lockEnvSelf (some 100) = true :=
  ⟨rfl, rfl, rfl, rfl⟩

/-- Claim C2 (amended): `checkLock` reports `available` exactly when
the marker file is absent, reading it fails with ENOENT, the recorded
pid belongs to a different process that is no longer alive (liveness
being the success of signal 0, any error counting as not alive), or the
recorded pid is this process itself but the path is no longer in the
in-process file set. -/
theorem checkLock_available_iff (env : ProcEnv) (files : List String)
    (fs : String → MarkerFile) (file : String) (uuid : Option String) :
    checkLock env files fs file uuid = .ok .available ↔
      (fs file = .absent ∨ fs file = .unreadableEnoent ∨
        (∃ p u, fs file = .present p u ∧ p ≠ some env.selfPid ∧ isAlive env p = false) ∨
        (∃ p u, fs file = .present p u ∧ p = some env.selfPid ∧ file ∉ files)) := by
  cases h : fs file with
  | absent => simp [checkLock, h]
  | unreadableEnoent => simp [checkLock, h]
  | unreadableOther => simp [checkLock, h]
  | present p u =>
    by_cases hp : p = some env.selfPid
    · by_cases hc : file ∈ files
      · cases uuid with
        | none => simp [checkLock, h, hp, hc]
        | some u2 =>
          by_cases hu : u = some u2
          · simp [checkLock, h, hp, hc, hu]
          · simp [checkLock, h, hp, hc, hu]
      · simp [checkLock, h, hp, hc]
    · cases ha : isAlive env p
      · simp [checkLock, h, hp, ha]
      · simp [checkLock, h, hp, ha]

/-- Claim C3 (confirmed): a successful `unlock()` on a handle holding a
non-empty file path invalidates the handle (file and uuid cleared),
removes the path from the in-process set, emits exactly one `unlock`
event for the path, and a second `unlock()` on the resulting handle is
a no-op: it succeeds, changes nothing, unlinks nothing and emits no
event. -/
theorem unlock_invalidates (env : ProcEnv) (h : LockHandleState)
    (files : List String) (fs : String → MarkerFile) (f : String)
    (hf : h.file = some f) (hne : f ≠ "") :
    ∀ h2 files2 fs2 evs, unlock env h files fs = .ok (h2, files2, fs2, evs) →
      h2.file = none ∧ h2.uuid = none ∧ f ∉ files2 ∧
      evs = [.unlockEvent f] ∧
      unlock env h2 files2 fs2 = .ok (h2, files2, fs2, []) := by
  intro h2 files2 fs2 evs heq
  obtain ⟨hfile, huuid⟩ := h
  simp only at hf
  subst hf
  have hlen : ¬ (f.length ≤ 0) := by
    intro h0
    apply hne
    have hz : f.length = 0 := Nat.le_zero.mp h0
    exact String.ext (List.length_eq_zero.mp hz)
  rw [show unlock env ⟨some f, huuid⟩ files fs =
        (if f.length ≤ 0 then .ok (⟨some f, huuid⟩, files, fs, [])
         else match checkLock env files fs f huuid with
           | .error e => .error e
           | .ok .available => .ok (unlockCleanup ⟨some f, huuid⟩ files fs false)
           | .ok .availableInstance => .ok (unlockCleanup ⟨some f, huuid⟩ files fs true)
           | .ok .lockedSelf => .error (.unableToUnlock true f)
           | .ok .lockedDifferent => .error (.unableToUnlock false f)) from rfl,
    if_neg hlen] at heq
  cases hcheck : checkLock env files fs f huuid with
  | error e => rw [hcheck] at heq; simp at heq
  | ok st =>
    rw [hcheck] at heq
    cases st with
    | available =>
      simp only [unlockCleanup, Except.ok.injEq, Prod.mk.injEq] at heq
      obtain ⟨e1, e2, e3, e4⟩ := heq
      subst e1
      subst e2
      subst e3
      subst e4
      refine ⟨rfl, rfl, ?_, rfl, rfl⟩
      simp [List.mem_filter]
    | availableInstance =>
      simp only [unlockCleanup, Except.ok.injEq, Prod.mk.injEq] at heq
      obtain ⟨e1, e2, e3, e4⟩ := heq
      subst e1
      subst e2
      subst e3
      subst e4
      refine ⟨rfl, rfl, ?_, rfl, rfl⟩
      simp [List.mem_filter]
    | lockedSelf => simp at heq
    | lockedDifferent => simp at heq

/-- Claim C3, witness: a concrete successful unlock (status
`availableInstance`, so the marker file is unlinked) followed by a
second, no-op unlock. -/
theorem unlock_invalidates_witness :
    (⟨none, none⟩ : LockHandleState).file = none ∧
    (⟨none, none⟩ : LockHandleState).uuid = none ∧
    "/dl/4.4.2.lock" ∉ (["/dl/4.4.2.lock"].filter (fun x => x ≠ "/dl/4.4.2.lock")) ∧
    [LockEvent.unlockEvent "/dl/4.4.2.lock"] = [LockEvent.unlockEvent "/dl/4.4.2.lock"] ∧
    unlock lockEnvSelf ⟨none, none⟩
        (["/dl/4.4.2.lock"].filter (fun x => x ≠ "/dl/4.4.2.lock")) lockFsSelfGone =
      .ok (⟨none, none⟩, ["/dl/4.4.2.lock"].filter (fun x => x ≠ "/dl/4.4.2.lock"),
        lockFsSelfGone, []) :=
  unlock_invalidates lockEnvSelf ⟨some "/dl/4.4.2.lock", some "uuid-1"⟩
    ["/dl/4.4.2.lock"] lockFsSelf "/dl/4.4.2.lock" rfl (by decide)
    ⟨none, none⟩ (["/dl/4.4.2.lock"].filter (fun x => x ≠ "/dl/4.4.2.lock"))
    lockFsSelfGone [.unlockEvent "/dl/4.4.2.lock"] rfl

/-- Claim C9, counterexample: `getUri` called with `otherIp` given as
the empty string does not build the host from `otherIp`; the falsy
check of `otherIp || "127.0.0.1"` makes it fall back to `127.0.0.1`. -/
theorem getUri_counterexample :
    MinioServer.getUri .running (some ⟨8080, "10.1.2.3"⟩) none (some "") =
      .ok "mongodb://127.0.0.1:8080/" ∧
    ("mongodb://127.0.0.1:8080/" : String) ≠ "mongodb://:8080/" :=
  ⟨rfl, by decide⟩

/-- Claim C9 (amended): in state `running` or `starting` with an
instance descriptor present, `getUri(otherDb, otherIp)` returns
`mongodb://<host>:<port>/<db>` where the host is the `otherIp` argument
when it is given and non-empty and the constant `127.0.0.1` otherwise
(also when `otherIp` is given as the empty string); the `ip` stored in
the instance descriptor is never used for the returned URI. -/
theorem getUri_spec (st : MinioServerStates) (i : InstanceInfo)
    (otherDb otherIp : Option String) (hst : st = .running ∨ st = .starting) :
    MinioServer.getUri st (some i) otherDb otherIp =
      .ok (uriTemplate (jsStringOr otherIp "127.0.0.1") (some i.port)
        (generateDbName otherDb) none) ∧
    uriTemplate (jsStringOr otherIp "127.0.0.1") (some i.port)
        (generateDbName otherDb) none =
      "mongodb://" ++ jsStringOr otherIp "127.0.0.1" ++ ":" ++ toString i.port ++
        "/" ++ generateDbName otherDb ∧
    (∀ ip2, MinioServer.getUri st (some ⟨i.port, ip2⟩) otherDb otherIp =
      MinioServer.getUri st (some i) otherDb otherIp) ∧
    (∀ s, otherIp = some s → s ≠ "" → jsStringOr otherIp "127.0.0.1" = s) ∧
    ((otherIp = none ∨ otherIp = some "") →
      jsStringOr otherIp "127.0.0.1" = "127.0.0.1") := by
  have hdata : ∀ a b : String, (a ++ b).data = a.data ++ b.data := fun a b => rfl
  have hext : ∀ a b : String, a.data = b.data → a = b := by
    intro a b hab
    cases a
    cases b
    exact congrArg String.mk (by simpa using hab)
  refine ⟨?_, ?_, ?_, ?_, ?_⟩
  · rcases hst with rfl | rfl <;> rfl
  · apply hext
    simp [uriTemplate, hdata, List.append_assoc]
  · intro ip2
    rcases hst with rfl | rfl <;> rfl
  · intro s hs hne
    subst hs
    simp [jsStringOr, hne]
  · rintro (rfl | rfl) <;> rfl

/-- Claim C9, witness for the amended theorem. -/
theorem getUri_spec_witness :
    MinioServer.getUri .running (some ⟨8080, "10.0.0.1"⟩) none (some "192.168.0.1") =
      .ok (uriTemplate (jsStringOr (some "192.168.0.1") "127.0.0.1") (some 8080)
        (generateDbName none) none) ∧
    MinioServer.getUri .running (some ⟨8080, "10.9.9.9"⟩) none (some "192.168.0.1") =
      MinioServer.getUri .running (some ⟨8080, "10.0.0.1"⟩) none (some "192.168.0.1") ∧
    jsStringOr (some "192.168.0.1") "127.0.0.1" = "192.168.0.1" ∧
    jsStringOr (some "") "127.0.0.1" = "127.0.0.1" :=
  ⟨(getUri_spec .running ⟨8080, "10.0.0.1"⟩ none (some "192.168.0.1") (Or.inl rfl)).1,
   (getUri_spec .running ⟨8080, "10.0.0.1"⟩ none (some "192.168.0.1")
      (Or.inl rfl)).2.2.1 "10.9.9.9",
   (getUri_spec .running ⟨8080, "10.0.0.1"⟩ none (some "192.168.0.1")
      (Or.inl rfl)).2.2.2.1 "192.168.0.1" rfl (by decide),
   (getUri_spec .running ⟨8080, "10.0.0.1"⟩ none (some "") (Or.inl rfl)).2.2.2.2
      (Or.inr rfl)⟩

/-- Helper: the entry fold of the extractors either leaves the cell
untouched or ends with a filtered entry written at mode `0o775`. -/
theorem extractFold_cases (entries : List (String × String)) (cell : FinalContent) :
    extractTarGz entries cell = cell ∨
      ∃ n c, (n, c) ∈ entries ∧ binaryEntryFilter n = true ∧
        extractTarGz entries cell = .fromEntry c 0o775 := by
  induction entries generalizing cell with
  | nil => exact Or.inl rfl
  | cons e es ih =>
    obtain ⟨n0, c0⟩ := e
    have estep : extractTarGz ((n0, c0) :: es) cell =
        extractTarGz es
          (if binaryEntryFilter n0 then FinalContent.fromEntry c0 0o775 else cell) := rfl
    by_cases hf : binaryEntryFilter n0 = true
    · rcases ih (FinalContent.fromEntry c0 0o775) with h1 | ⟨n, c, hmem, hfil, hres⟩
      · refine Or.inr ⟨n0, c0, List.mem_cons_self _ _, hf, ?_⟩
        rw [estep, if_pos hf, h1]
      · refine Or.inr ⟨n, c, List.mem_cons_of_mem _ hmem, hfil, ?_⟩
        rw [estep, if_pos hf, hres]
    · rcases ih cell with h1 | ⟨n, c, hmem, hfil, hres⟩
      · refine Or.inl ?_
        rw [estep, if_neg hf, h1]
      · refine Or.inr ⟨n, c, List.mem_cons_of_mem _ hmem, hfil, ?_⟩
        rw [estep, if_neg hf, hres]

/-- Helper: when no entry passes the filter, the fold leaves the cell
untouched. -/
theorem extractFold_nomatch : ∀ (entries : List (String × String)) (cell : FinalContent),
    (∀ e ∈ entries, binaryEntryFilter e.1 = false) → extractTarGz entries cell = cell := by
  intro entries
  induction entries with
  | nil => intro cell _; rfl
  | cons e es ih =>
    intro cell hall
    obtain ⟨n0, c0⟩ := e
    have hf := hall (n0, c0) (List.mem_cons_self _ _)
    rw [show extractTarGz ((n0, c0) :: es) cell =
        extractTarGz es
          (if binaryEntryFilter n0 then FinalContent.fromEntry c0 0o775 else cell) from rfl,
      if_neg (by simp [hf])]
    exact ih cell (fun x hx => hall x (List.mem_cons_of_mem _ hx))

/-- Helper: the zip entry loop writes exactly like the tar entry loop. -/
theorem extractZip_eq_tarGz (entries : List (String × String)) (cell : FinalContent) :
    extractZip entries cell = extractTarGz entries cell := rfl

/-- Claim C4, counterexample: extracting a recognized tar-gz archive
that contains no entry matching the binary filter leaves the verbatim
copy of the whole archive at the final binary path, made by the initial
`copyFile`.  The claim states that nothing but matching entries is
placed at the final binary path. -/
theorem extract_counterexample :
    extract "minio-linux-amd64-1.0.0.tgz" "RAWARCHIVE" [("docs/README", "doc")] =
      .fromArchiveCopy "RAWARCHIVE" ∧
    matchesTarGz "minio-linux-amd64-1.0.0.tgz" = true ∧
    binaryEntryFilter "docs/README" = false :=
  ⟨rfl, by decide, by decide⟩

/-- Claim C4 (amended): `extract` first copies the downloaded archive
verbatim onto the binary final path; it then dispatches on the archive
name (tar-gz and tgz through the tar path, zip through the zip path).
Whatever entry content ends up at the final path has mode `0o775` and
is the content of some archive entry matching `bin/(minio|minio.exe)$`
(case-insensitive); when the extension is unrecognized, or no entry
matches, the final path retains the verbatim archive copy instead. -/
theorem extract_spec (name raw : String) (entries : List (String × String)) :
    (∀ c m, extract name raw entries = .fromEntry c m →
      m = 0o775 ∧ ∃ n, (n, c) ∈ entries ∧ binaryEntryFilter n = true) ∧
    (matchesTarGz name = false → matchesZip name = false →
      extract name raw entries = .fromArchiveCopy raw) ∧
    ((∀ e ∈ entries, binaryEntryFilter e.1 = false) →
      extract name raw entries = .fromArchiveCopy raw) := by
  have edef : extract name raw entries =
      (if matchesTarGz name then extractTarGz entries (.fromArchiveCopy raw)
       else if matchesZip name then extractZip entries (.fromArchiveCopy raw)
       else .fromArchiveCopy raw) := rfl
  refine ⟨?_, ?_, ?_⟩
  · intro c m heq
    rw [edef] at heq
    by_cases h1 : matchesTarGz name = true
    · rw [if_pos h1] at heq
      rcases extractFold_cases entries (.fromArchiveCopy raw) with
        hcell | ⟨n, c2, hmem, hfil, hres⟩
      · rw [hcell] at heq
        simp at heq
      · rw [hres] at heq
        injection heq with hc hm
        exact ⟨hm.symm, n, hc ▸ hmem, hfil⟩
    · rw [if_neg h1] at heq
      by_cases h2 : matchesZip name = true
      · rw [if_pos h2, extractZip_eq_tarGz] at heq
        rcases extractFold_cases entries (.fromArchiveCopy raw) with
          hcell | ⟨n, c2, hmem, hfil, hres⟩
        · rw [hcell] at heq
          simp at heq
        · rw [hres] at heq
          injection heq with hc hm
          exact ⟨hm.symm, n, hc ▸ hmem, hfil⟩
      · rw [if_neg h2] at heq
        simp at heq
  · intro h1 h2
    rw [edef, if_neg (by simp [h1]), if_neg (by simp [h2])]
  · intro hall
    rw [edef]
    by_cases h1 : matchesTarGz name = true
    · rw [if_pos h1]
      exact extractFold_nomatch entries _ hall
    · rw [if_neg h1]
      by_cases h2 : matchesZip name = true
      · rw [if_pos h2, extractZip_eq_tarGz]
        exact extractFold_nomatch entries _ hall
      · rw [if_neg h2]

/-- Claim C4, witness for the amended theorem. -/
theorem extract_spec_witness :
    (0o775 = 0o775 ∧ ∃ n, (n, "BIN") ∈ [("bin/minio", "BIN")] ∧
      binaryEntryFilter n = true) ∧
    extract "archive" "RAW" [("bin/minio", "BIN")] = .fromArchiveCopy "RAW" ∧
    extract "a.tgz" "RAW" [("docs/README", "doc")] = .fromArchiveCopy "RAW" :=
  ⟨(extract_spec "a.tgz" "RAW" [("bin/minio", "BIN")]).1 "BIN" 0o775 rfl,
   (extract_spec "archive" "RAW" [("bin/minio", "BIN")]).2.1 (by decide) (by decide),
   (extract_spec "a.tgz" "RAW" [("docs/README", "doc")]).2.2 (by decide)⟩

/-- Helper: a short read below the declared content length is rejected
whenever the `path` of the http options does not end in `.md5`. -/
theorem httpDownload_short (optionsPath : Option String) (resp : HttpResponse)
    (loc tmp : String) (len : Nat) (h200 : resp.statusCode = 200)
    (hsome : resp.contentLength = some len) (hlt : resp.receivedBytes < len)
    (hmd5 : optPathEndsWithMd5 optionsPath = false) :
    httpDownload optionsPath resp loc tmp = .error (.tooSmall resp.receivedBytes) := by
  have hdef : httpDownload optionsPath resp loc tmp =
      (if resp.statusCode ≠ 200 then
        if resp.statusCode = 403 then Except.error .status403
        else Except.error (.statusNot200 resp.statusCode)
       else
        match resp.contentLength with
        | none => Except.error .noContentLength
        | some len2 =>
          if resp.receivedBytes < len2 ∧ optPathEndsWithMd5 optionsPath = false then
            Except.error (.tooSmall resp.receivedBytes)
          else Except.ok loc) := rfl
  rw [hdef, if_neg (by simp [h200]), hsome]
  show (if resp.receivedBytes < len ∧ optPathEndsWithMd5 optionsPath = false then
      Except.error (DownloadFailure.tooSmall resp.receivedBytes)
    else Except.ok loc) = Except.error (DownloadFailure.tooSmall resp.receivedBytes)
  rw [if_pos ⟨hlt, hmd5⟩]

/-- Helper: a successful `httpDownload` returns the final download
location. -/
theorem httpDownload_ok_loc (optionsPath : Option String) (resp : HttpResponse)
    (loc tmp f : String) (h : httpDownload optionsPath resp loc tmp = .ok f) :
    f = loc := by
  have hdef : httpDownload optionsPath resp loc tmp =
      (if resp.statusCode ≠ 200 then
        if resp.statusCode = 403 then Except.error .status403
        else Except.error (.statusNot200 resp.statusCode)
       else
        match resp.contentLength with
        | none => Except.error .noContentLength
        | some len2 =>
          if resp.receivedBytes < len2 ∧ optPathEndsWithMd5 optionsPath = false then
            Except.error (.tooSmall resp.receivedBytes)
          else Except.ok loc) := rfl
  rw [hdef] at h
  by_cases h200 : resp.statusCode ≠ 200
  · rw [if_pos h200] at h
    by_cases h403 : resp.statusCode = 403
    · rw [if_pos h403] at h
      simp at h
    · rw [if_neg h403] at h
      simp at h
  · rw [if_neg h200] at h
    cases hc : resp.contentLength with
    | none =>
      rw [hc] at h
      simp at h
    | some len =>
      rw [hc] at h
      have h3 : (if resp.receivedBytes < len ∧ optPathEndsWithMd5 optionsPath = false then
          Except.error (DownloadFailure.tooSmall resp.receivedBytes)
        else Except.ok loc) = Except.ok f := h
      by_cases hcond : resp.receivedBytes < len ∧ optPathEndsWithMd5 optionsPath = false
      · rw [if_pos hcond] at h3
        simp at h3
      · rw [if_neg hcond] at h3
        injection h3 with h2
        exact h2.symm

/-- Claim C5, counterexample: a download whose URL ends in `.md5` is
not exempt from the short-read rejection: `download` passes http
options without a `path` property, so the exemption
`httpOptions.path?.endsWith(".md5")` never fires and the short read is
rejected with the Too-small `DownloadError`. -/
theorem download_md5_short_read_counterexample :
    download "/dl" "/minio/archive.md5" (fun _ => false) ⟨200, some 100, 50⟩ =
      .error (.tooSmall 50) ∧
    strEndsWith "/minio/archive.md5" ".md5" = true :=
  ⟨rfl, by decide⟩

/-- Claim C5 (amended): for an HTTP 200 response, `httpDownload` fails
with a `DownloadError` when the `content-length` header is absent, and
fails with the Too-small `DownloadError` when fewer bytes than declared
were received — unless `httpOptions.path` ends in `.md5`.  Since the
caller `download` never sets a `path` on the request options, the
exemption never applies to it and short reads are rejected for every
URL, including URLs ending in `.md5`. -/
theorem httpDownload_spec (optionsPath : Option String) (resp : HttpResponse)
    (loc tmp dir pathname : String) (fileExists : String → Bool) :
    (resp.statusCode = 200 → resp.contentLength = none →
      httpDownload optionsPath resp loc tmp = .error .noContentLength) ∧
    (∀ len, resp.statusCode = 200 → resp.contentLength = some len →
      resp.receivedBytes < len → optPathEndsWithMd5 optionsPath = false →
      httpDownload optionsPath resp loc tmp = .error (.tooSmall resp.receivedBytes)) ∧
    (resp.statusCode = 200 → optPathEndsWithMd5 optionsPath = true →
      ∀ len, resp.contentLength = some len →
      httpDownload optionsPath resp loc tmp = .ok loc) ∧
    (resp.statusCode = 200 → ∀ len, resp.contentLength = some len →
      resp.receivedBytes < len →
      fileExists (dir ++ "/" ++ String.mk ((splitOnSlash pathname.data).getLastD [])) = false →
      String.mk ((splitOnSlash pathname.data).getLastD []) ≠ "" →
      download dir pathname fileExists resp = .error (.tooSmall resp.receivedBytes)) := by
  have hdef : httpDownload optionsPath resp loc tmp =
      (if resp.statusCode ≠ 200 then
        if resp.statusCode = 403 then Except.error .status403
        else Except.error (.statusNot200 resp.statusCode)
       else
        match resp.contentLength with
        | none => Except.error .noContentLength
        | some len2 =>
          if resp.receivedBytes < len2 ∧ optPathEndsWithMd5 optionsPath = false then
            Except.error (.tooSmall resp.receivedBytes)
          else Except.ok loc) := rfl
  refine ⟨?_, ?_, ?_, ?_⟩
  · intro h200 hnone
    rw [hdef, if_neg (by simp [h200]), hnone]
  · intro len h200 hsome hlt hmd5
    exact httpDownload_short optionsPath resp loc tmp len h200 hsome hlt hmd5
  · intro h200 hmd5 len hsome
    rw [hdef, if_neg (by simp [h200]), hsome]
    show (if resp.receivedBytes < len ∧ optPathEndsWithMd5 optionsPath = false then
        Except.error (DownloadFailure.tooSmall resp.receivedBytes)
      else Except.ok loc) = Except.ok loc
    rw [if_neg (by simp [hmd5])]
  · intro h200 len hsome hlt hfe hne
    have ddef : download dir pathname fileExists resp =
        (if String.mk ((splitOnSlash pathname.data).getLastD []) = "" then
          Except.error .missingFilename
         else if fileExists
            (dir ++ "/" ++ String.mk ((splitOnSlash pathname.data).getLastD [])) then
          Except.ok
            (dir ++ "/" ++ String.mk ((splitOnSlash pathname.data).getLastD []), [])
         else
          match httpDownload none resp
              (dir ++ "/" ++ String.mk ((splitOnSlash pathname.data).getLastD []))
              (dir ++ "/" ++ String.mk ((splitOnSlash pathname.data).getLastD []) ++
                ".downloading") with
          | .error e => Except.error e
          | .ok f =>
            Except.ok (f,
              [.httpGet,
               .renameTempToFinal
                 (dir ++ "/" ++ String.mk ((splitOnSlash pathname.data).getLastD []) ++
                   ".downloading")
                 (dir ++ "/" ++ String.mk ((splitOnSlash pathname.data).getLastD []))])) :=
      rfl
    rw [ddef, if_neg hne, if_neg (by rw [hfe]; exact Bool.false_ne_true),
      httpDownload_short none resp _ _ len h200 hsome hlt rfl]

/-- Claim C5, witness for the amended theorem. -/
theorem httpDownload_spec_witness :
    httpDownload none ⟨200, none, 0⟩ "/dl/a" "/dl/a.downloading" =
      .error .noContentLength ∧
    httpDownload none ⟨200, some 100, 50⟩ "/dl/a" "/dl/a.downloading" =
      .error (.tooSmall 50) ∧
    httpDownload (some "/x.md5") ⟨200, some 100, 50⟩ "/dl/a" "/dl/a.downloading" =
      .ok "/dl/a" ∧
    download "/dl" "/m/a.md5" (fun _ => false) ⟨200, some 100, 50⟩ =
      .error (.tooSmall 50) :=
  ⟨(httpDownload_spec none ⟨200, none, 0⟩ "/dl/a" "/dl/a.downloading" "/dl" "/m/a.md5"
      (fun _ => false)).1 rfl rfl,
   (httpDownload_spec none ⟨200, some 100, 50⟩ "/dl/a" "/dl/a.downloading" "/dl" "/m/a.md5"
      (fun _ => false)).2.1 100 rfl rfl (by decide) rfl,
   (httpDownload_spec (some "/x.md5") ⟨200, some 100, 50⟩ "/dl/a" "/dl/a.downloading"
      "/dl" "/m/a.md5" (fun _ => false)).2.2.1 rfl (by decide) 100 rfl,
   (httpDownload_spec none ⟨200, some 100, 50⟩ "x" "y" "/dl" "/m/a.md5"
      (fun _ => false)).2.2.2 rfl 100 rfl (by decide) rfl (by decide)⟩

/-- Claim C10 (confirmed): when a file already exists at
`<downloadDir>/<last URL path segment>`, `download` returns that path
immediately with no HTTP request and no rename; only when no such file
exists does an HTTP download occur, and every successful HTTP download
returns that same path after renaming the `.downloading` temp file onto
it. -/
theorem download_spec (dir pathname : String) (fileExists : String → Bool)
    (resp : HttpResponse)
    (hne : String.mk ((splitOnSlash pathname.data).getLastD []) ≠ "") :
    (fileExists (dir ++ "/" ++ String.mk ((splitOnSlash pathname.data).getLastD [])) = true →
      download dir pathname fileExists resp =
        .ok (dir ++ "/" ++ String.mk ((splitOnSlash pathname.data).getLastD []), [])) ∧
    (fileExists (dir ++ "/" ++ String.mk ((splitOnSlash pathname.data).getLastD [])) = false →
      ∀ p evs, download dir pathname fileExists resp = .ok (p, evs) →
        p = dir ++ "/" ++ String.mk ((splitOnSlash pathname.data).getLastD []) ∧
        evs = [.httpGet,
          .renameTempToFinal
            (dir ++ "/" ++ String.mk ((splitOnSlash pathname.data).getLastD []) ++
              ".downloading")
            (dir ++ "/" ++ String.mk ((splitOnSlash pathname.data).getLastD []))]) := by
  have ddef : download dir pathname fileExists resp =
      (if String.mk ((splitOnSlash pathname.data).getLastD []) = "" then
        Except.error .missingFilename
       else if fileExists
          (dir ++ "/" ++ String.mk ((splitOnSlash pathname.data).getLastD [])) then
        Except.ok
          (dir ++ "/" ++ String.mk ((splitOnSlash pathname.data).getLastD []), [])
       else
        match httpDownload none resp
            (dir ++ "/" ++ String.mk ((splitOnSlash pathname.data).getLastD []))
            (dir ++ "/" ++ String.mk ((splitOnSlash pathname.data).getLastD []) ++
              ".downloading") with
        | .error e => Except.error e
        | .ok f =>
          Except.ok (f,
            [.httpGet,
             .renameTempToFinal
               (dir ++ "/" ++ String.mk ((splitOnSlash pathname.data).getLastD []) ++
                 ".downloading")
               (dir ++ "/" ++ String.mk ((splitOnSlash pathname.data).getLastD []))])) :=
    rfl
  constructor
  · intro h
    rw [ddef, if_neg hne, if_pos h]
  · intro h p evs heq
    rw [ddef, if_neg hne, if_neg (by rw [h]; exact Bool.false_ne_true)] at heq
    cases hh : httpDownload none resp
        (dir ++ "/" ++ String.mk ((splitOnSlash pathname.data).getLastD []))
        (dir ++ "/" ++ String.mk ((splitOnSlash pathname.data).getLastD []) ++
          ".downloading") with
    | error e =>
      rw [hh] at heq
      simp at heq
    | ok f =>
      rw [hh] at heq
      have hf := httpDownload_ok_loc none resp _ _ f hh
      simp only [Except.ok.injEq, Prod.mk.injEq] at heq
      obtain ⟨hp, hevs⟩ := heq
      exact ⟨by rw [← hp, hf], hevs.symm⟩

/-- Claim C10, witness. -/
theorem download_spec_witness :
    download "/dl" "/rel/arch" (fun _ => true) ⟨200, some 100, 100⟩ =
      .ok ("/dl/arch", []) ∧
    (("/dl/arch" : String) = "/dl/arch" ∧
      [DownloadEvent.httpGet,
        DownloadEvent.renameTempToFinal "/dl/arch.downloading" "/dl/arch"] =
      [DownloadEvent.httpGet,
        DownloadEvent.renameTempToFinal "/dl/arch.downloading" "/dl/arch"]) :=
  ⟨(download_spec "/dl" "/rel/arch" (fun _ => true) ⟨200, some 100, 100⟩ (by decide)).1 rfl,
   (download_spec "/dl" "/rel/arch" (fun _ => false) ⟨200, some 100, 100⟩ (by decide)).2
     rfl "/dl/arch"
     [DownloadEvent.httpGet,
       DownloadEvent.renameTempToFinal "/dl/arch.downloading" "/dl/arch"] rfl⟩
